import Mathlib

/-!
Verification of the core conversion logic of `examples/shp_to_geojson.py`
(shapefile → GeoJSON converter).

The embedding models the body of `shp_to_geojson` (lines 54–139): the
attribute projection loop, the geometry dispatch on shape type, the
part-splitting rule for multi-part polylines/polygons, the feature
accumulation loop, and the shape of the emitted JSON document.

Coordinates are kept abstract (a type parameter `V`): the Python code never
inspects a coordinate pair, it only moves them between lists, so every
claim about coordinates holds for an arbitrary coordinate type.
-/

/-- Attribute values as they appear in a shapefile record row.  `date iso`
models a Python value exposing an `isoformat` method whose result is `iso`;
the remaining constructors are the JSON-native values that pass through the
projection loop untouched. -/
inductive Value where
  | str (s : String)
  | num (n : Int)
  | boolean (b : Bool)
  | null
  | date (iso : String)
deriving Repr, DecidableEq

/-- Python exceptions that the modelled code can raise. -/
inductive PyError where
  | indexError
deriving Repr, DecidableEq

/-- A decoded shape record: `shapeType` tag, flat coordinate buffer
`points`, and the part start-offset table `parts`
(`shape.shapeType`, `shape.points`, `shape.parts` in the source). -/
structure Shape (V : Type) where
  shapeType : Nat
  points : List V
  parts : List Nat
deriving Repr, DecidableEq

/-- The tagged GeoJSON geometry values the converter can build
(the `geometry` dicts of lines 86–126). -/
inductive Geometry (V : Type) where
  | point (c : V)
  | lineString (coords : List V)
  | multiLineString (lines : List (List V))
  | polygon (rings : List (List V))
deriving Repr, DecidableEq

/-- Python list slicing `xs[start:stop]` for non-negative bounds: the
elements at indices `start ≤ i < stop`, clamped to the list. -/
def pySlice (xs : List V) (start stop : Nat) : List V :=
  (xs.drop start).take (stop - start)

/-- The part-splitting loop of lines 100–103 (and identically 119–122):
for each index `i` into `parts`, the slice of `points` from `parts[i]` to
`parts[i+1]`, or to `len(points)` for the last part. -/
def splitParts (points : List V) : List Nat → List (List V)
  | [] => []
  | [p] => [pySlice points p points.length]
  | p :: q :: rest => pySlice points p q :: splitParts points (q :: rest)

/-- The slice end used for part `i`: `parts[i+1]` when it exists, else
`len(points)` (the conditional expression on lines 102/121). -/
def partEnd (points : List V) (parts : List Nat) (i : Nat) : Nat :=
  (parts[i+1]?).getD points.length

/-- The geometry dispatch of lines 82–126.  `Except.error .indexError`
models the `IndexError` that `shape.points[0]` raises on an empty point
buffer; `Except.ok none` is the `geometry = None` fall-through for
unsupported shape types. -/
def buildGeometry (s : Shape V) : Except PyError (Option (Geometry V)) :=
  if s.shapeType = 1 then
    match s.points with
    | [] => .error .indexError
    | p :: _ => .ok (some (.point p))
  else if s.shapeType = 3 then
    if s.parts.length = 1 then
      .ok (some (.lineString s.points))
    else
      .ok (some (.multiLineString (splitParts s.points s.parts)))
  else if s.shapeType = 5 then
    if s.parts.length = 1 then
      .ok (some (.polygon [s.points]))
    else
      .ok (some (.polygon (splitParts s.points s.parts)))
  else
    .ok none

/-- The date normalization of lines 78–79: a value with an `isoformat`
method is replaced by its ISO-8601 string; every other value is unchanged. -/
def normalizeValue : Value → Value
  | .date iso => .str iso
  | v => v

/-- Python dict insertion `m[k] = v`: overwrite in place when the key is
already present (keeping its position), else append. -/
def dictInsert (m : List (String × Value)) (k : String) (v : Value) :
    List (String × Value) :=
  if m.any (fun p => p.1 = k) then
    m.map (fun p => if p.1 = k then (k, v) else p)
  else
    m ++ [(k, v)]

/-- The attribute projection loop of lines 74–80, carried out with an
accumulating dict.  `record[i]` raises `IndexError` when the row runs out
before the field names do; extra row values beyond the field names are
never read. -/
def projectLoop (acc : List (String × Value)) :
    List String → List Value → Except PyError (List (String × Value))
  | [], _ => .ok acc
  | _ :: _, [] => .error .indexError
  | f :: fs, v :: vs => projectLoop (dictInsert acc f (normalizeValue v)) fs vs

/-- The `properties` dict built for one record (lines 74–80). -/
def projectRow (fieldNames : List String) (row : List Value) :
    Except PyError (List (String × Value)) :=
  projectLoop [] fieldNames row

/-- One GeoJSON feature: the `geometry`/`properties` pair of the feature
dict built on lines 130–134. -/
structure Feature (V : Type) where
  geometry : Geometry V
  properties : List (String × Value)
deriving Repr, DecidableEq

/-- The assembled document before serialization: the fixed CRS name and the
accumulated feature list. -/
structure FeatureCollection (V : Type) where
  crsName : String
  features : List (Feature V)
deriving Repr, DecidableEq

/-- The per-record work of the loop body (lines 69–135): project the
attributes first, then build the geometry — this order matters, it is the
order the Python statements execute and hence the order exceptions fire. -/
def processRecord (fieldNames : List String) (rec : Shape V × List Value) :
    Except PyError (Option (Feature V)) :=
  match projectRow fieldNames rec.2 with
  | .error e => .error e
  | .ok props =>
    match buildGeometry rec.1 with
    | .error e => .error e
    | .ok geom => .ok (geom.map (fun g => ⟨g, props⟩))

/-- The accumulation loop over `sf.shapeRecords()` (lines 69–135): records
whose geometry came back `None` are skipped (`if geometry:` on line 129),
the rest append a feature in record order. -/
def buildFeatures (fieldNames : List String) :
    List (Shape V × List Value) → Except PyError (List (Feature V))
  | [] => .ok []
  | r :: rs =>
    match processRecord fieldNames r with
    | .error e => .error e
    | .ok f? =>
      match buildFeatures fieldNames rs with
      | .error e => .error e
      | .ok rest =>
        match f? with
        | none => .ok rest
        | some f => .ok (f :: rest)

/-- The hard-coded CRS identifier of line 62. -/
def defaultCrs : String := "EPSG:4326"

/-- The whole conversion (lines 54–135): field names and decoded records in,
feature-collection document out. -/
def shpToGeojson (fieldNames : List String)
    (records : List (Shape V × List Value)) :
    Except PyError (FeatureCollection V) :=
  match buildFeatures fieldNames records with
  | .error e => .error e
  | .ok fs => .ok ⟨defaultCrs, fs⟩

/-- JSON values, with coordinates kept abstract: `jcoord` is one coordinate
pair as it is placed into the document, `jval` an attribute value. -/
inductive Json (V : Type) where
  | jstr (s : String)
  | jarr (xs : List (Json V))
  | jobj (kvs : List (String × Json V))
  | jval (v : Value)
  | jcoord (p : V)

/-- The geometry dicts exactly as built on lines 86–126. -/
def geometryJson : Geometry V → Json V
  | .point p => .jobj [("type", .jstr "Point"), ("coordinates", .jcoord p)]
  | .lineString ps =>
      .jobj [("type", .jstr "LineString"),
             ("coordinates", .jarr (ps.map .jcoord))]
  | .multiLineString ls =>
      .jobj [("type", .jstr "MultiLineString"),
             ("coordinates", .jarr (ls.map (fun l => .jarr (l.map .jcoord))))]
  | .polygon rs =>
      .jobj [("type", .jstr "Polygon"),
             ("coordinates", .jarr (rs.map (fun r => .jarr (r.map .jcoord))))]

/-- The feature dict of lines 130–134. -/
def featureJson (f : Feature V) : Json V :=
  .jobj [("type", .jstr "Feature"),
         ("geometry", geometryJson f.geometry),
         ("properties", .jobj (f.properties.map (fun kv => (kv.1, .jval kv.2))))]

/-- The top-level `geojson` dict of lines 57–66 with its `features` array
filled in. -/
def docJson (d : FeatureCollection V) : Json V :=
  .jobj [("type", .jstr "FeatureCollection"),
         ("crs", .jobj [("type", .jstr "name"),
                        ("properties", .jobj [("name", .jstr d.crsName)])]),
         ("features", .jarr (d.features.map featureJson))]

/-- The `indent` argument passed to `json.dump` on line 139. -/
def jsonDumpIndent : Nat := 2

/-- Key list of a JSON object (empty for non-objects); used to state which
top-level keys the emitted document has. -/
def jsonKeys : Json V → List String
  | .jobj kvs => kvs.map (fun kv => kv.1)
  | _ => []

/-- Lookup of a key in a JSON object (none for non-objects). -/
def jsonGet : Json V → String → Option (Json V)
  | .jobj kvs, k => (kvs.find? (fun kv => kv.1 = k)).map (fun kv => kv.2)
  | _, _ => none

example : pySlice [10, 20, 30, 40, 50] 0 3 = [10, 20, 30] := by decide
example : pySlice [10, 20, 30, 40, 50] 3 5 = [40, 50] := by decide
example : splitParts [10, 20, 30, 40, 50] [0, 3] = [[10, 20, 30], [40, 50]] := by decide
example : buildGeometry ⟨3, [10, 20, 30, 40, 50], [0, 3]⟩ =
    .ok (some (.multiLineString [[10, 20, 30], [40, 50]])) := rfl
example : buildGeometry ⟨1, ([] : List Nat), [0]⟩ = .error .indexError := rfl
example : projectRow ["a"] [.num 1, .num 2] = .ok [("a", .num 1)] := rfl
example : projectRow ["a", "b"] [.num 1] = .error .indexError := rfl

theorem splitParts_length (points : List V) :
    ∀ parts : List Nat, (splitParts points parts).length = parts.length
  | [] => rfl
  | [_] => rfl
  | p :: q :: rest => by
    have ih := splitParts_length points (q :: rest)
    simp [splitParts] at ih ⊢
    omega

theorem splitParts_get? (points : List V) :
    ∀ (parts : List Nat) (i s : Nat), parts[i]? = some s →
      (splitParts points parts)[i]? =
        some (pySlice points s (partEnd points parts i))
  | [], i, s, h => by simp at h
  | [p], 0, s, h => by
    simp at h
    subst h
    simp [splitParts, partEnd]
  | [p], n + 1, s, h => by simp at h
  | p :: q :: rest, 0, s, h => by
    simp at h
    subst h
    simp [splitParts, partEnd]
  | p :: q :: rest, n + 1, s, h => by
    have ih := splitParts_get? points (q :: rest) n s (by simpa using h)
    simpa [splitParts, partEnd] using ih

theorem pySlice_append_drop (points : List V) (a b : Nat) (hab : a ≤ b) :
    pySlice points a b ++ points.drop b = points.drop a := by
  have h1 : points.drop b = (points.drop a).drop (b - a) := by
    rw [List.drop_drop]
    congr 1
    omega
  rw [pySlice, h1, List.take_append_drop]

theorem splitParts_flatten (points : List V) :
    ∀ (parts : List Nat) (p : Nat), parts.head? = some p →
      parts.Chain' (· < ·) → (∀ q ∈ parts, q ≤ points.length) →
      (splitParts points parts).flatten = points.drop p
  | [], p, h, _, _ => by simp at h
  | [a], p, h, _, hb => by
    simp at h
    subst h
    have ha : a ≤ points.length := hb a (by simp)
    show (splitParts points [a]).flatten = points.drop a
    simp only [splitParts, List.flatten_cons, List.flatten_nil, List.append_nil,
      pySlice]
    apply List.take_of_length_le
    simp
  | a :: b :: rest, p, h, hc, hb => by
    simp at h
    subst h
    have hab : a < b := (List.chain'_cons.mp hc).1
    have ih := splitParts_flatten points (b :: rest) b rfl (List.chain'_cons.mp hc).2
      (fun q hq => hb q (List.mem_cons_of_mem a hq))
    show (pySlice points a b :: splitParts points (b :: rest)).flatten =
      points.drop a
    rw [List.flatten_cons, ih, pySlice_append_drop points a b (Nat.le_of_lt hab)]

theorem buildFeatures_cons_parts (fn : List String) (r : Shape V × List Value)
    (rs : List (Shape V × List Value)) (fs : List (Feature V))
    (h : buildFeatures fn (r :: rs) = .ok fs) :
    ∃ o fs', processRecord fn r = .ok o ∧ buildFeatures fn rs = .ok fs' ∧
      fs = o.toList ++ fs' := by
  simp only [buildFeatures] at h
  cases hp : processRecord fn r with
  | error e => rw [hp] at h; simp at h
  | ok o =>
    rw [hp] at h
    cases hb : buildFeatures fn rs with
    | error e => rw [hb] at h; simp at h
    | ok fs' =>
      rw [hb] at h
      refine ⟨o, fs', rfl, rfl, ?_⟩
      cases o with
      | none => simp at h; simp [h]
      | some f => simp at h; simp [h]

/-- C1: a Polyline record (shape type 3) with a single-entry parts list
yields a `LineString` carrying the record's points unchanged; with any
other parts list it yields a `MultiLineString` whose i-th line is the slice
of `points` from `parts[i]` to `parts[i+1]` (or to `len(points)` for the
last part). -/
theorem polyline_dispatch (s : Shape V) (h : s.shapeType = 3) :
    (s.parts.length = 1 →
      buildGeometry s = .ok (some (.lineString s.points))) ∧
    (s.parts.length ≠ 1 →
      buildGeometry s =
        .ok (some (.multiLineString (splitParts s.points s.parts))) ∧
      (splitParts s.points s.parts).length = s.parts.length ∧
      ∀ i st, s.parts[i]? = some st →
        (splitParts s.points s.parts)[i]? =
          some (pySlice s.points st (partEnd s.points s.parts i))) := by
  refine ⟨fun h1 => ?_, fun h1 => ⟨?_, splitParts_length s.points s.parts,
    fun i st hst => splitParts_get? s.points s.parts i st hst⟩⟩
  · simp [buildGeometry, h, h1]
  · simp [buildGeometry, h, h1]

theorem polyline_dispatch_witness :
    buildGeometry (⟨3, [10, 20, 30, 40, 50], [0, 3]⟩ : Shape Nat) =
      .ok (some (.multiLineString [[10, 20, 30], [40, 50]])) := by
  have h :=
    (polyline_dispatch (⟨3, [10, 20, 30, 40, 50], [0, 3]⟩ : Shape Nat) rfl).2
      (by decide)
  rw [h.1]
  rfl

/-- C5: a Point record (shape type 1) with a non-empty point buffer yields
a `Point` geometry carrying exactly the first entry of `points`. -/
theorem point_dispatch (s : Shape V) (p : V) (rest : List V)
    (h : s.shapeType = 1) (hp : s.points = p :: rest) :
    buildGeometry s = .ok (some (.point p)) := by
  simp [buildGeometry, h, hp]

theorem point_dispatch_witness :
    buildGeometry (⟨1, [(7, 9)], [0]⟩ : Shape (Nat × Nat)) =
      .ok (some (.point (7, 9))) :=
  point_dispatch ⟨1, [(7, 9)], [0]⟩ (7, 9) [] rfl rfl

/-- C10: for shape type 1, a non-empty point buffer means the head access
is well-defined and a geometry is produced, while an empty buffer makes
the Point branch a failing case (`IndexError`), not a geometry. -/
theorem point_branch_safety (s : Shape V) (h : s.shapeType = 1) :
    (s.points ≠ [] → ∃ q, s.points.head? = some q ∧
      buildGeometry s = .ok (some (.point q))) ∧
    (s.points = [] → buildGeometry s = .error .indexError) := by
  constructor
  · intro hne
    cases hpts : s.points with
    | nil => exact absurd hpts hne
    | cons q qs =>
      exact ⟨q, by simp [hpts], by simp [buildGeometry, h, hpts]⟩
  · intro hnil
    simp [buildGeometry, h, hnil]

theorem point_branch_safety_witness :
    buildGeometry (⟨1, ([] : List Nat), [0]⟩ : Shape Nat) =
      .error .indexError :=
  (point_branch_safety (⟨1, ([] : List Nat), [0]⟩ : Shape Nat) rfl).2 rfl

/-- C2: a Polygon record (shape type 5) with one part yields
`Polygon [points]`; with several parts it yields a single `Polygon` whose
rings are the part slices as siblings — the result is always tagged
`Polygon` (never a multi-polygon variant), and one record contributes at
most one feature to the accumulated output. -/
theorem polygon_dispatch (s : Shape V) (h : s.shapeType = 5) :
    (s.parts.length = 1 →
      buildGeometry s = .ok (some (.polygon [s.points]))) ∧
    (s.parts.length ≠ 1 →
      buildGeometry s = .ok (some (.polygon (splitParts s.points s.parts))) ∧
      (splitParts s.points s.parts).length = s.parts.length ∧
      ∀ i st, s.parts[i]? = some st →
        (splitParts s.points s.parts)[i]? =
          some (pySlice s.points st (partEnd s.points s.parts i))) ∧
    (∀ g, buildGeometry s = .ok (some g) → ∃ rings, g = .polygon rings) ∧
    (∀ (fn : List String) (row : List Value) rs fs fs',
      buildFeatures fn ((s, row) :: rs) = .ok fs →
      buildFeatures fn rs = .ok fs' → fs.length ≤ fs'.length + 1) := by
  refine ⟨fun h1 => ?_,
    fun h1 => ⟨?_, splitParts_length s.points s.parts,
      fun i st hst => splitParts_get? s.points s.parts i st hst⟩,
    fun g hg => ?_, fun fn row rs fs fs' hcons hrest => ?_⟩
  · simp [buildGeometry, h, h1]
  · simp [buildGeometry, h, h1]
  · by_cases h1 : s.parts.length = 1 <;>
      simp [buildGeometry, h, h1] at hg <;> exact ⟨_, hg.symm⟩
  · obtain ⟨o, fs'', hp, hb, heq⟩ := buildFeatures_cons_parts fn _ rs fs hcons
    rw [hrest] at hb
    cases hb
    cases o with
    | none => simp [heq]
    | some f => simp [heq]

theorem polygon_dispatch_witness :
    buildGeometry
        (⟨5, [(0, 0), (4, 0), (4, 4), (0, 4), (1, 1), (2, 1), (2, 2), (1, 2)],
          [0, 4]⟩ : Shape (Nat × Nat)) =
      .ok (some (.polygon [[(0, 0), (4, 0), (4, 4), (0, 4)],
        [(1, 1), (2, 1), (2, 2), (1, 2)]])) := by
  have h :=
    ((polygon_dispatch
      (⟨5, [(0, 0), (4, 0), (4, 4), (0, 4), (1, 1), (2, 1), (2, 2), (1, 2)],
        [0, 4]⟩ : Shape (Nat × Nat)) rfl).2.1 (by decide)).1
  rw [h]
  rfl

/-- C9: for a multi-part Polyline whose part offsets are strictly
increasing, start at 0, and lie below `len(points)`, the flattening of the
MultiLineString's lines restores the original point sequence, so the total
coordinate count over the lines equals the original point count. -/
theorem polyline_split_preserves_points (s : Shape V) (h : s.shapeType = 3)
    (hlen : 2 ≤ s.parts.length) (h0 : s.parts.head? = some 0)
    (hinc : s.parts.Chain' (· < ·))
    (hbound : ∀ q ∈ s.parts, q < s.points.length) :
    buildGeometry s =
      .ok (some (.multiLineString (splitParts s.points s.parts))) ∧
    (splitParts s.points s.parts).flatten = s.points ∧
    ((splitParts s.points s.parts).map List.length).sum =
      s.points.length := by
  have hflat : (splitParts s.points s.parts).flatten = s.points.drop 0 :=
    splitParts_flatten s.points s.parts 0 h0 hinc
      (fun q hq => Nat.le_of_lt (hbound q hq))
  rw [List.drop_zero] at hflat
  refine ⟨?_, hflat, ?_⟩
  · have h1 : s.parts.length ≠ 1 := by omega
    simp [buildGeometry, h, h1]
  · calc ((splitParts s.points s.parts).map List.length).sum
        = (splitParts s.points s.parts).flatten.length :=
          (List.length_flatten _).symm
      _ = s.points.length := by rw [hflat]

theorem polyline_split_preserves_points_witness :
    (splitParts ([10, 20, 30, 40, 50] : List Nat) [0, 3]).flatten =
      [10, 20, 30, 40, 50] :=
  (polyline_split_preserves_points (⟨3, [10, 20, 30, 40, 50], [0, 3]⟩ : Shape Nat)
    rfl (by decide) (by decide) (by simp [List.chain'_cons]) (by decide)).2.1

theorem projectLoop_short :
    ∀ (fns : List String) (row : List Value) (acc : List (String × Value)),
      row.length < fns.length → projectLoop acc fns row = .error .indexError
  | [], _, _, h => by simp at h
  | _ :: _, [], _, _ => rfl
  | f :: fs, v :: vs, acc, h =>
    projectLoop_short fs vs (dictInsert acc f (normalizeValue v))
      (by simp only [List.length_cons] at h; omega)

theorem projectLoop_total :
    ∀ (fns : List String) (row : List Value) (acc : List (String × Value)),
      fns.length ≤ row.length → ∃ props, projectLoop acc fns row = .ok props
  | [], _, acc, _ => ⟨acc, rfl⟩
  | _ :: _, [], _, h => by simp at h
  | f :: fs, v :: vs, acc, h =>
    projectLoop_total fs vs (dictInsert acc f (normalizeValue v))
      (by simp only [List.length_cons] at h; omega)

theorem dictInsert_of_not_mem (m : List (String × Value)) (k : String)
    (v : Value) (h : ∀ p ∈ m, p.1 ≠ k) : dictInsert m k v = m ++ [(k, v)] := by
  have hc : m.any (fun p => p.1 = k) = false := by
    rw [List.any_eq_false]
    intro p hp
    simp [h p hp]
  simp [dictInsert, hc]

theorem projectLoop_eq_zip :
    ∀ (fns : List String) (row : List Value) (acc : List (String × Value)),
      fns.Nodup → (∀ f ∈ fns, ∀ p ∈ acc, p.1 ≠ f) →
      fns.length ≤ row.length →
      projectLoop acc fns row = .ok (acc ++ fns.zip (row.map normalizeValue))
  | [], row, acc, _, _, _ => by simp [projectLoop]
  | _ :: _, [], _, _, _, h => by simp at h
  | f :: fs, v :: vs, acc, hnd, hacc, hlen => by
    have hne : ∀ p ∈ acc, p.1 ≠ f := fun p hp => hacc f (by simp) p hp
    have hnd' : fs.Nodup := (List.nodup_cons.mp hnd).2
    have hfnotin : f ∉ fs := (List.nodup_cons.mp hnd).1
    have hacc' : ∀ g ∈ fs, ∀ p ∈ acc ++ [(f, normalizeValue v)], p.1 ≠ g := by
      intro g hg p hp
      rcases List.mem_append.mp hp with h1 | h2
      · exact hacc g (List.mem_cons_of_mem f hg) p h1
      · simp only [List.mem_singleton] at h2
        rw [h2]
        show f ≠ g
        exact fun hfg => hfnotin (by rw [hfg]; exact hg)
    have ih := projectLoop_eq_zip fs vs (acc ++ [(f, normalizeValue v)]) hnd'
      hacc' (by simp only [List.length_cons] at hlen; omega)
    show projectLoop (dictInsert acc f (normalizeValue v)) fs vs = _
    rw [dictInsert_of_not_mem acc f _ hne, ih]
    simp [List.zip_cons_cons]

/-- C3 counterexample: with field list `["a"]` and the two-value row
`[1, 2]` the arities differ, yet the projection succeeds and silently
truncates the row to the field names — no failure is raised. -/
theorem arity_mismatch_not_always_failing :
    (["a"] : List String).length ≠ ([Value.num 1, Value.num 2]).length ∧
    projectRow ["a"] [Value.num 1, Value.num 2] = .ok [("a", Value.num 1)] :=
  ⟨by decide, rfl⟩

/-- C3 (amended): the projection fails (with the index error) exactly when
the row is shorter than the field-name list; a row at least as long as the
field list always projects successfully, with any extra values silently
dropped. -/
theorem arity_mismatch_behavior (fn : List String) (row : List Value) :
    (row.length < fn.length → projectRow fn row = .error .indexError) ∧
    (fn.length ≤ row.length → ∃ props, projectRow fn row = .ok props) :=
  ⟨fun h => projectLoop_short fn row [] h,
   fun h => projectLoop_total fn row [] h⟩

theorem arity_mismatch_behavior_witness :
    projectRow ["a", "b"] [Value.num 1] = .error .indexError :=
  (arity_mismatch_behavior ["a", "b"] [Value.num 1]).1 (by decide)

/-- C6: with pairwise-distinct field names and a row at least as long as
the field list, the projected properties are exactly the field names in
field order, each bound to the same-position row value; values pass
through unchanged except date-like values, which become their ISO-8601
string. -/
theorem projection_binds_in_order (fn : List String) (row : List Value)
    (hnd : fn.Nodup) (hlen : fn.length = row.length) :
    projectRow fn row = .ok (fn.zip (row.map normalizeValue)) ∧
    (∀ s, normalizeValue (.str s) = .str s) ∧
    (∀ n, normalizeValue (.num n) = .num n) ∧
    (∀ b, normalizeValue (.boolean b) = .boolean b) ∧
    normalizeValue .null = .null ∧
    (∀ iso, normalizeValue (.date iso) = .str iso) := by
  refine ⟨?_, fun _ => rfl, fun _ => rfl, fun _ => rfl, rfl, fun _ => rfl⟩
  have h := projectLoop_eq_zip fn row [] hnd (by simp) (Nat.le_of_eq hlen)
  simpa [projectRow] using h

theorem projection_binds_in_order_witness :
    projectRow ["name", "when"] [Value.str "lot", Value.date "2024-01-02"] =
      .ok [("name", Value.str "lot"), ("when", Value.str "2024-01-02")] := by
  have h := (projection_binds_in_order ["name", "when"]
    [Value.str "lot", Value.date "2024-01-02"] (by decide) rfl).1
  rw [h]
  rfl

/-- C4: a record whose shape type is outside {1, 3, 5} produces no
geometry and no error: its processing yields `.ok none`, and (given its
attribute row projects) the feature list of a run starting at this record
is exactly the feature list of the remaining records — the record is
silently excluded while later records are still processed. -/
theorem unsupported_type_skipped (s : Shape V) (h1 : s.shapeType ≠ 1)
    (h3 : s.shapeType ≠ 3) (h5 : s.shapeType ≠ 5) :
    buildGeometry s = .ok none ∧
    (∀ (fn : List String) (row : List Value) props,
      projectRow fn row = .ok props →
      processRecord fn (s, row) = .ok none) ∧
    (∀ (fn : List String) (row : List Value) props
      (rs : List (Shape V × List Value)),
      projectRow fn row = .ok props →
      buildFeatures fn ((s, row) :: rs) = buildFeatures fn rs) := by
  have hg : buildGeometry s = .ok none := by
    simp [buildGeometry, h1, h3, h5]
  refine ⟨hg, fun fn row props hp => ?_, fun fn row props rs hp => ?_⟩
  · simp [processRecord, hp, hg]
  · have hpr : processRecord fn (s, row) = .ok none := by
      simp [processRecord, hp, hg]
    simp only [buildFeatures]
    rw [hpr]
    cases hb : buildFeatures fn rs <;> simp

theorem unsupported_type_skipped_witness :
    buildGeometry (⟨8, [7], [0]⟩ : Shape Nat) = .ok none ∧
    buildFeatures [] [((⟨8, [7], [0]⟩ : Shape Nat), [])] = .ok [] := by
  have h := unsupported_type_skipped (⟨8, [7], [0]⟩ : Shape Nat)
    (by decide) (by decide) (by decide)
  exact ⟨h.1, by rw [h.2.2 [] [] [] [] rfl]; rfl⟩

theorem buildFeatures_ok_eq (fn : List String) :
    ∀ (records : List (Shape V × List Value)) (fs : List (Feature V)),
      buildFeatures fn records = .ok fs →
      fs = records.filterMap
        (fun r => match processRecord fn r with
                  | .ok o => o
                  | .error _ => none)
  | [], fs, h => by cases h; rfl
  | r :: rs, fs, h => by
    obtain ⟨o, fs', hp, hb, heq⟩ := buildFeatures_cons_parts fn r rs fs h
    have ih := buildFeatures_ok_eq fn rs fs' hb
    subst heq
    rw [List.filterMap_cons]
    cases o with
    | none => simpa [hp] using ih
    | some f => simpa [hp] using ih

/-- C8: whenever the conversion succeeds, the document's feature array is
exactly the per-record results of the supported records, in source order
(a filterMap over the record list), the CRS name is the default, and the
result is uniquely determined by the inputs. -/
theorem features_exact_in_order (fn : List String)
    (records : List (Shape V × List Value)) (d : FeatureCollection V)
    (h : shpToGeojson fn records = .ok d) :
    d.features = records.filterMap
      (fun r => match processRecord fn r with
                | .ok o => o
                | .error _ => none) ∧
    d.crsName = defaultCrs ∧
    ∀ d₂, shpToGeojson fn records = .ok d₂ → d₂ = d := by
  simp only [shpToGeojson] at h
  cases hb : buildFeatures fn records with
  | error e => rw [hb] at h; simp at h
  | ok fs =>
    rw [hb] at h
    injection h with h'
    subst h'
    refine ⟨buildFeatures_ok_eq fn records fs hb, rfl, ?_⟩
    intro d₂ h₂
    simp only [shpToGeojson] at h₂
    rw [hb] at h₂
    injection h₂ with h₂'
    exact h₂'.symm

theorem features_exact_in_order_witness :
    ([((⟨1, [(5, 6)], [0]⟩ : Shape (Nat × Nat)), [Value.num 7]),
      ((⟨8, [(0, 0)], [0]⟩ : Shape (Nat × Nat)), [Value.num 9])].filterMap
        (fun r => match processRecord ["a"] r with
                  | .ok o => o
                  | .error _ => none)) =
      [⟨.point (5, 6), [("a", Value.num 7)]⟩] := by
  have h := (features_exact_in_order ["a"]
    [((⟨1, [(5, 6)], [0]⟩ : Shape (Nat × Nat)), [Value.num 7]),
     ((⟨8, [(0, 0)], [0]⟩ : Shape (Nat × Nat)), [Value.num 9])]
    (⟨defaultCrs, [⟨.point (5, 6), [("a", Value.num 7)]⟩]⟩ :
      FeatureCollection (Nat × Nat)) rfl).1
  exact h.symm

/-- C7: any successfully produced document renders to a JSON object with
exactly the top-level keys `type` = "FeatureCollection",
`crs` = the name object carrying the default identifier "EPSG:4326", and
`features` = an array whose members each carry exactly `type` = "Feature",
a geometry, and a properties object; the serializer is invoked with
2-space indentation. -/
theorem document_structure (fn : List String)
    (records : List (Shape V × List Value)) (d : FeatureCollection V)
    (h : shpToGeojson fn records = .ok d) :
    jsonKeys (docJson d) = ["type", "crs", "features"] ∧
    jsonGet (docJson d) "type" = some (.jstr "FeatureCollection") ∧
    jsonGet (docJson d) "crs" =
      some (.jobj [("type", .jstr "name"),
                   ("properties", .jobj [("name", .jstr "EPSG:4326")])]) ∧
    jsonGet (docJson d) "features" =
      some (.jarr (d.features.map featureJson)) ∧
    (∀ f ∈ d.features,
      jsonKeys (featureJson f) = ["type", "geometry", "properties"] ∧
      jsonGet (featureJson f) "type" = some (.jstr "Feature") ∧
      jsonGet (featureJson f) "geometry" = some (geometryJson f.geometry) ∧
      ∃ props, jsonGet (featureJson f) "properties" = some (.jobj props)) ∧
    jsonDumpIndent = 2 := by
  have hcrs : d.crsName = defaultCrs := by
    simp only [shpToGeojson] at h
    cases hb : buildFeatures fn records with
    | error e => rw [hb] at h; simp at h
    | ok fs => rw [hb] at h; injection h with h'; rw [← h']
  refine ⟨rfl, rfl, ?_, rfl, ?_, rfl⟩
  · rw [show jsonGet (docJson d) "crs" =
      some (.jobj [("type", Json.jstr "name"),
        ("properties", .jobj [("name", .jstr d.crsName)])]) from rfl, hcrs]
    rfl
  · intro f _
    exact ⟨rfl, rfl, rfl, ⟨_, rfl⟩⟩

theorem document_structure_witness :
    jsonGet (docJson (⟨defaultCrs, []⟩ : FeatureCollection Nat)) "crs" =
      some (.jobj [("type", .jstr "name"),
                   ("properties", .jobj [("name", .jstr "EPSG:4326")])]) :=
  (document_structure [] [] (⟨defaultCrs, []⟩ : FeatureCollection Nat)
    rfl).2.2.1
